import Mathlib

/-!
Verification of the distillation core of
`examples/summarization/bart/finetune.py`.

The development shallowly embeds the algorithmic core of the file:
the decoder layer selector and the layer-count assertion of
`SummarizationDistiller.__init__`, the loss blending and label/input
construction of `SummarizationDistiller._step`, the temperature-scaled
KL soft-target loss with optional masked selection of
`SummarizationDistiller.calc_ce_loss`, the freezing procedure
`freeze_stuff` / `freeze_part`, the gradient-scope discipline around the
teacher forward pass, and the order of side effects in `__init__`.

Tensors are modelled as lists: logit tensors of shape
(batch, sequence, vocabulary) are flattened over the first two
dimensions to a list of vocabulary rows, which is exactly the shape
reached in the source by `view(-1, s_logits.size(-1))`; the padding mask
is the corresponding list of booleans over (batch * sequence) positions.
Real-valued tensor entries are modelled as real numbers.
-/

namespace BartDistill

/-- Python list slicing with stride two, `l[::2]`: every second element
starting at index 0 (line 216 of the source). -/
def everySecond {α : Type} : List α → List α
  | [] => []
  | [a] => [a]
  | a :: _ :: rest => a :: everySecond rest

/-- Lines 212-216 of the source: the student decoder depth is
`teacher.config.decoder_layers // 2`; when that equals 6 the hand-tuned
list `[0, 2, 4, 7, 9, 11]` is used, otherwise
`list(range(teacher.config.decoder_layers))[::2]`. -/
def layers_to_copy (teacher_decoder_layers : Nat) : List Nat :=
  if teacher_decoder_layers / 2 = 6 then [0, 2, 4, 7, 9, 11]
  else everySecond (List.range teacher_decoder_layers)

/-- Line 212 of the source: the student configuration overrides
`decoder_layers` with `teacher.config.decoder_layers // 2`. -/
def student_decoder_layers (teacher_decoder_layers : Nat) : Nat :=
  teacher_decoder_layers / 2

/-- Line 228 of the source:
`assert len(self.model.model.decoder.layers) == len(layers_to_copy)`.
Modelled from the spec: the model class built from the student
configuration is not under src/; by the data model of the spec the
decoder of a model built from a configuration is an ordered sequence of
exactly `decoder_layers` decoder layers. -/
def layer_count_assertion (teacher_decoder_layers : Nat) : Prop :=
  student_decoder_layers teacher_decoder_layers
    = (layers_to_copy teacher_decoder_layers).length

instance (n : Nat) : Decidable (layer_count_assertion n) := by
  unfold layer_count_assertion; infer_instance

lemma everySecond_length {α : Type} (l : List α) :
    (everySecond l).length = (l.length + 1) / 2 := by
  induction l using everySecond.induct with
  | case1 => simp only [everySecond, List.length_nil]
  | case2 a => simp only [everySecond, List.length_cons, List.length_nil]
  | case3 a b rest ih =>
    simp only [everySecond, List.length_cons, ih]
    omega

lemma everySecond_map {α β : Type} (f : α → β) (l : List α) :
    everySecond (l.map f) = (everySecond l).map f := by
  induction l using everySecond.induct with
  | case1 => simp only [everySecond, List.map_nil]
  | case2 a => simp only [everySecond, List.map_cons, List.map_nil]
  | case3 a b rest ih => simp only [everySecond, List.map_cons, ih]

lemma range_add_two (m : Nat) :
    List.range (m + 2) = 0 :: 1 :: (List.range m).map (fun i => i + 2) := by
  rw [List.range_succ_eq_map, List.range_succ_eq_map, List.map_cons, List.map_map]
  refine congrArg (List.cons 0) (congrArg (List.cons 1) ?_)
  refine List.map_congr_left (fun a _ => ?_)
  simp only [Function.comp_apply]

lemma everySecond_range (n : Nat) :
    everySecond (List.range n) = (List.range ((n + 1) / 2)).map (fun i => 2 * i) := by
  induction n using Nat.strong_induction_on with
  | _ n ih =>
    match n with
    | 0 => simp [everySecond]
    | 1 => decide
    | (m + 2) =>
      have hm : (m + 2 + 1) / 2 = (m + 1) / 2 + 1 := by omega
      rw [range_add_two]
      rw [show everySecond (0 :: 1 :: (List.range m).map (fun i => i + 2))
            = 0 :: everySecond ((List.range m).map (fun i => i + 2)) from by
        simp only [everySecond]]
      rw [everySecond_map, ih m (by omega), hm, List.range_succ_eq_map,
        List.map_cons, List.map_map, List.map_map]
      refine congrArg (List.cons 0) ?_
      exact List.map_congr_left (fun a _ => by simp [Function.comp]; omega)

/-- C1: for every teacher decoder depth `n` the selector computes the
student depth as `n / 2`; it returns exactly `[0, 2, 4, 7, 9, 11]` when
that computed depth equals 6, and otherwise the stride-2 list
`0, 2, 4, ...` over the teacher's layer range (of length `⌈n / 2⌉`); in
particular it returns `[0, 2, 4, 7, 9, 11]` at teacher depth 12 and
`[0, 2, 4, 6, 8, 10, 12, 14]` at teacher depth 16. -/
theorem layers_to_copy_spec (n : Nat) :
    layers_to_copy n
      = (if student_decoder_layers n = 6 then [0, 2, 4, 7, 9, 11]
         else (List.range ((n + 1) / 2)).map (fun i => 2 * i))
    ∧ layers_to_copy 12 = [0, 2, 4, 7, 9, 11]
    ∧ layers_to_copy 16 = [0, 2, 4, 6, 8, 10, 12, 14] := by
  refine ⟨?_, by decide, by decide⟩
  unfold layers_to_copy student_decoder_layers
  by_cases h : n / 2 = 6
  · simp [h]
  · simp [h, everySecond_range]

/-- C9 counterexample: at teacher decoder depth 7 the initializer's
layer-count assertion fails: the student is configured with
`7 / 2 = 3` decoder layers while the selector returns 4 indices, so the
success branch of the assertion is not the only reachable one. -/
theorem layer_count_assertion_fails_at_seven :
    ¬ layer_count_assertion 7 := by decide

/-- C9 amended: the layer-count assertion of the initializer succeeds
exactly for the teacher decoder depths that are even or equal to 13; for
every other (odd) depth the assertion fails. -/
theorem layer_count_assertion_iff (n : Nat) :
    layer_count_assertion n ↔ (n % 2 = 0 ∨ n = 13) := by
  unfold layer_count_assertion student_decoder_layers layers_to_copy
  by_cases h : n / 2 = 6
  · rw [if_pos h]
    have hlen : ([0, 2, 4, 7, 9, 11] : List Nat).length = 6 := rfl
    rw [hlen]
    omega
  · rw [if_neg h, everySecond_range, List.length_map, List.length_range]
    omega

/-- C10: for every odd teacher decoder depth `n` with `n / 2 ≠ 6`, the
stride-2 selection produces `n / 2 + 1` indices while the student is
configured with `n / 2` decoder layers, so the selected list is one
entry longer than the student depth and the layer-count assertion
fails; when `n` is even the selector output length matches the student
depth exactly. -/
theorem odd_depth_assertion_failure (n : Nat) :
    (n % 2 = 1 → n / 2 ≠ 6 →
      (layers_to_copy n).length = student_decoder_layers n + 1
        ∧ ¬ layer_count_assertion n)
    ∧ (n % 2 = 0 → (layers_to_copy n).length = student_decoder_layers n) := by
  constructor
  · intro hodd h6
    have hlen : (layers_to_copy n).length = (n + 1) / 2 := by
      unfold layers_to_copy
      rw [if_neg h6, everySecond_range, List.length_map, List.length_range]
    have hstu : student_decoder_layers n = n / 2 := rfl
    refine ⟨by omega, ?_⟩
    unfold layer_count_assertion
    omega
  · intro heven
    unfold layers_to_copy
    by_cases h : n / 2 = 6
    · have : n = 12 := by omega
      subst this; decide
    · rw [if_neg h, everySecond_range, List.length_map, List.length_range]
      show (n + 1) / 2 = n / 2
      omega

/-- Witness for `odd_depth_assertion_failure` at the concrete odd depth
7 and even depth 16. -/
theorem odd_depth_assertion_failure_witness :
    ((7 : Nat) % 2 = 1 ∧ (7 : Nat) / 2 ≠ 6
      ∧ (layers_to_copy 7).length = student_decoder_layers 7 + 1
      ∧ ¬ layer_count_assertion 7)
    ∧ ((16 : Nat) % 2 = 0
      ∧ (layers_to_copy 16).length = student_decoder_layers 16) :=
  ⟨⟨by decide, by decide,
    ((odd_depth_assertion_failure 7).1 (by decide) (by decide)).1,
    ((odd_depth_assertion_failure 7).1 (by decide) (by decide)).2⟩,
   ⟨by decide, (odd_depth_assertion_failure 16).2 (by decide)⟩⟩

/-! ### Per-step construction of decoder inputs and labels
Lines 248-250 of `SummarizationDistiller._step` (identical to lines
83-85 of `SummarizationTrainer._step`): one row of the target-id tensor
is a list of token ids. -/

/-- Line 248 of the source: `y_ids = y[:, :-1]`, a target row with its
last position removed. -/
def y_ids (y : List Int) : List Int := y.dropLast

/-- Lines 249-250 of the source: `lm_labels = y[:, 1:].clone()` followed
by `lm_labels[y[:, 1:] == pad_token_id] = -100`: the target row with its
first position removed and every padding token replaced by -100. -/
def lm_labels (pad_token_id : Int) (y : List Int) : List Int :=
  (y.drop 1).map (fun t => if t = pad_token_id then -100 else t)

/-- Modelled from the spec's words (claim C7): shifting a sequence left
by one position moves every element one index earlier, discarding the
first element. -/
def shiftLeftOne (y : List Int) : List Int := y.drop 1

/-- Modelled from the spec's words (claim C7): shifting a sequence right
by one position moves every element one index later; the last element
falls off the end. -/
def shiftRightOne (y : List Int) : List Int := y.dropLast

/-- C7 counterexample: on the target row `[1, 2, 3]` with padding token
0, the decoder input built by the step function is `[1, 2]`, not the
left-shifted row `[2, 3]`, and the labels are `[2, 3]`, not the masked
right-shifted row: the claim's shift directions are swapped. -/
theorem shift_directions_swapped :
    ¬ (y_ids [1, 2, 3] = shiftLeftOne [1, 2, 3]
        ∧ lm_labels 0 [1, 2, 3]
            = (shiftRightOne [1, 2, 3]).map (fun t => if t = 0 then -100 else t)) := by
  decide

/-- C7 amended: for every batch row, the step function constructs the
decoder input by shifting the target ids right by one position (dropping
the final position) and constructs the supervised labels by shifting
the target ids left by one position (dropping the first position),
replacing every padding-token position in the labels with the sentinel
ignore-value -100; both results are one position shorter than the
target row. -/
theorem step_shift_construction (pad_token_id : Int) (y : List Int) :
    y_ids y = shiftRightOne y
    ∧ lm_labels pad_token_id y
        = (shiftLeftOne y).map (fun t => if t = pad_token_id then -100 else t)
    ∧ (y_ids y).length = y.length - 1
    ∧ (lm_labels pad_token_id y).length = y.length - 1 := by
  refine ⟨rfl, rfl, ?_, ?_⟩
  · simp [y_ids]
  · simp [lm_labels]

/-! ### Loss blending, line 260 of the source -/

/-- Line 260 of the source:
`blended_loss = loss_ce * self.alpha_ce + self.alpha_mlm * sloss`. -/
noncomputable def blended_loss (alpha_ce alpha_mlm loss_ce sloss : ℝ) : ℝ :=
  loss_ce * alpha_ce + alpha_mlm * sloss

/-- C2: the blended loss of the distillation step equals
`alpha_ce * soft_target_loss + alpha_mlm * supervised_loss`; with
`alpha_ce = 1, alpha_mlm = 0` it equals the soft-target loss and with
`alpha_ce = 0, alpha_mlm = 1` it equals the supervised loss. -/
theorem blended_loss_spec (alpha_ce alpha_mlm loss_ce sloss : ℝ) :
    blended_loss alpha_ce alpha_mlm loss_ce sloss
      = alpha_ce * loss_ce + alpha_mlm * sloss
    ∧ blended_loss 1 0 loss_ce sloss = loss_ce
    ∧ blended_loss 0 1 loss_ce sloss = sloss := by
  refine ⟨by unfold blended_loss; ring, by unfold blended_loss; ring,
    by unfold blended_loss; ring⟩

/-! ### Parameters, freezing, and the gradient scope of the teacher

A parameter is modelled by its value and its `requires_grad` flag; a
module is a list of parameters. The structures mirror the attribute
paths used by `freeze_stuff` (lines 237-243): `self.model.model.shared`,
`self.model.model.encoder`, `self.model.model.decoder` with its
`embed_positions`, `embed_tokens` and `layers` submodules, and the
teacher attached at `self.model.teacher` (line 229). The decoder also
carries its layer normalization, which `freeze_stuff` does not touch. -/

structure Param where
  val : Int
  requires_grad : Bool
deriving DecidableEq

structure BartDecoder where
  embed_positions : List Param
  embed_tokens : List Param
  layers : List Param
  layernorm_embedding : List Param
deriving DecidableEq

structure BartModel where
  shared : List Param
  encoder : List Param
  decoder : BartDecoder
deriving DecidableEq

structure StudentWithTeacher where
  model : BartModel
  teacher : List Param
deriving DecidableEq

/-- Lines 202-204 of the source: `freeze_part` sets
`par.requires_grad = False` for every parameter of the module. -/
def freeze_part (ps : List Param) : List Param :=
  ps.map (fun p => { p with requires_grad := false })

/-- Lines 237-243 of the source: `freeze_stuff` applies `freeze_part`
to the student encoder, the teacher, the shared embedding table, and
the decoder's positional and token embeddings; the five frozen
submodules are disjoint fields, so the sequence of in-place updates is
a single record update. -/
def freeze_stuff (s : StudentWithTeacher) : StudentWithTeacher :=
  { model :=
      { shared := freeze_part s.model.shared
        encoder := freeze_part s.model.encoder
        decoder :=
          { embed_positions := freeze_part s.model.decoder.embed_positions
            embed_tokens := freeze_part s.model.decoder.embed_tokens
            layers := s.model.decoder.layers
            layernorm_embedding := s.model.decoder.layernorm_embedding } }
    teacher := freeze_part s.teacher }

/-- C5: after `freeze_stuff`, `requires_grad` is false on every
parameter of the teacher, the student encoder, the shared embedding
table, and the decoder's positional and token embeddings, while the
decoder layers and the decoder layer normalization are left exactly as
they were (hence remain trainable if they were). -/
theorem freeze_stuff_spec (s : StudentWithTeacher) :
    ((freeze_stuff s).teacher.all (fun p => !p.requires_grad)) = true
    ∧ ((freeze_stuff s).model.encoder.all (fun p => !p.requires_grad)) = true
    ∧ ((freeze_stuff s).model.shared.all (fun p => !p.requires_grad)) = true
    ∧ ((freeze_stuff s).model.decoder.embed_positions.all
        (fun p => !p.requires_grad)) = true
    ∧ ((freeze_stuff s).model.decoder.embed_tokens.all
        (fun p => !p.requires_grad)) = true
    ∧ (freeze_stuff s).model.decoder.layers = s.model.decoder.layers
    ∧ (freeze_stuff s).model.decoder.layernorm_embedding
        = s.model.decoder.layernorm_embedding := by
  refine ⟨?_, ?_, ?_, ?_, ?_, rfl, rfl⟩ <;>
    simp [freeze_stuff, freeze_part, List.all_eq_true]

/-- Models `with torch.no_grad():` (line 255 of the source): a value
computed inside the scope is detached, so a later backward pass
produces gradients for none of the parameters used inside. The second
component of a forward result is the list of parameters that would
receive a gradient from backpropagating through it. -/
def torch_no_grad {α : Type} (x : α × List Param) : α × List Param :=
  (x.1, [])

/-- The parameters of a module that participate in gradient
accumulation: exactly those with `requires_grad` set. -/
def gradParams (ps : List Param) : List Param :=
  ps.filter (fun p => p.requires_grad)

/-- The teacher forward pass of lines 256-258: it returns the teacher
loss and would send gradients to every teacher parameter that still
requires grad. -/
def teacherForward (s : StudentWithTeacher) (tloss : ℝ) : ℝ × List Param :=
  (tloss, gradParams s.teacher)

/-- Lines 255-258 of the source: the teacher forward call of `_step` is
wrapped in `torch.no_grad()`. -/
def teacherStepCall (s : StudentWithTeacher) (tloss : ℝ) : ℝ × List Param :=
  torch_no_grad (teacherForward s tloss)

/-- An optimizer update: gradient descent writes only parameters with
`requires_grad` set; all others keep their value. -/
def optimizer_step (g : Param → Int) (ps : List Param) : List Param :=
  ps.map (fun p => if p.requires_grad then { p with val := p.val - g p } else p)

/-- C6: the teacher forward pass of `_step` runs inside a no-gradient
scope, so it contributes no gradient targets; and because `freeze_stuff`
has cleared `requires_grad` on every teacher parameter, an optimizer
update after any training step leaves the teacher parameter values
unchanged, whatever gradients `g` it tries to apply. -/
theorem teacher_never_updated (s : StudentWithTeacher) (tloss : ℝ)
    (g : Param → Int) :
    (teacherStepCall s tloss).2 = []
    ∧ (optimizer_step g (freeze_stuff s).teacher).map Param.val
        = (freeze_stuff s).teacher.map Param.val := by
  refine ⟨rfl, ?_⟩
  simp [optimizer_step, freeze_stuff, freeze_part, List.map_map, Function.comp]

/-! ### Order of effects in `SummarizationDistiller.__init__`
Lines 211-232 of the source, one event per statement with an external
effect or a weight operation, in program order. -/

inductive InitEvent where
  | loadTeacher
  | buildStudentConfig
  | buildStudentModel
  | initStudent
  | copyDecoderLayers
  | mkdirModelPath
  | savePretrained
  | loadTokenizer
  | superInit
  | assertLayerCount
  | attachTeacher
  | freezeStuffCall
deriving DecidableEq, BEq

/-- The statement order of `SummarizationDistiller.__init__`
(lines 211-232): teacher load (211), student config (212-219), student
model allocation (220), `init_student` weight copy (221),
`copy_decoder_layers` weight copy (222), `mkdir` (223),
`save_pretrained` (224), tokenizer load (225), `super().__init__`
(226), the layer-count assertion (228), teacher attachment (229), and
`freeze_stuff` (232). -/
def init_trace : List InitEvent :=
  [.loadTeacher, .buildStudentConfig, .buildStudentModel, .initStudent,
   .copyDecoderLayers, .mkdirModelPath, .savePretrained, .loadTokenizer,
   .superInit, .assertLayerCount, .attachTeacher, .freezeStuffCall]

/-- C8 counterexample: in the initialization sequence the
save-to-storage operation (`save_pretrained`, line 224) does not
precede the weight-copy operations (`init_student`, line 221, and
`copy_decoder_layers`, line 222); both copies come first. -/
theorem save_precedes_copy_false :
    ¬ (init_trace.indexOf .savePretrained < init_trace.indexOf .initStudent
        ∧ init_trace.indexOf .savePretrained
            < init_trace.indexOf .copyDecoderLayers) := by
  decide

/-- C8 amended: the initializer first copies the teacher weights into
the student (`init_student`, then `copy_decoder_layers`) and only then
persists the fully initialized student model to storage; the
save-to-storage operation follows both weight-copy operations. -/
theorem save_follows_weight_copy :
    init_trace.indexOf InitEvent.initStudent
        < init_trace.indexOf InitEvent.savePretrained
    ∧ init_trace.indexOf InitEvent.copyDecoderLayers
        < init_trace.indexOf InitEvent.savePretrained
    ∧ init_trace.indexOf InitEvent.savePretrained < init_trace.length := by
  decide

/-! ### `calc_ce_loss`, lines 263-288 of the source

A logit tensor of shape (batch, sequence, vocabulary) is modelled,
flattened over its first two dimensions, as a list of vocabulary rows
(`List (List ℝ)`); the padding mask is the matching `List Bool` over
the flattened (batch * sequence) positions, true at padding. Because
the mask is broadcast over the vocabulary dimension before
`torch.masked_select`, the selection keeps or drops whole vocabulary
rows, and the subsequent `view(-1, s_logits.size(-1))` regroups the
flat selection into exactly the kept rows. -/

/-- Modelled from the spec: `invert_mask` (imported from
`transformers.modeling_bart`, which is not under src/) turns a mask
that is true at padding positions into its true-at-real-token inverse;
it is applied exactly once, at line 266 of the source. -/
def invert_mask (mask : List Bool) : List Bool := mask.map not

/-- `torch.masked_select` with a row-broadcast mask followed by
`view(-1, vocabulary)`: keep the rows at positions where the
(already inverted) mask is true. -/
def selectRows (keep : List Bool) (rows : List (List ℝ)) : List (List ℝ) :=
  (keep.zip rows).filterMap (fun p => if p.1 then some p.2 else none)

/-- Lines 264-277 of the source: with a mask, invert it and select the
real-token rows of both logit tensors; with `mask is None`, use all
rows. -/
def selectLogits (mask : Option (List Bool)) (logits : List (List ℝ)) :
    List (List ℝ) :=
  match mask with
  | some m => selectRows (invert_mask m) logits
  | none => logits

/-- `F.softmax(xs, dim=-1)` on one vocabulary row. -/
noncomputable def softmaxRow (xs : List ℝ) : List ℝ :=
  xs.map (fun x => Real.exp x / (xs.map Real.exp).sum)

/-- `F.log_softmax(xs, dim=-1)` on one vocabulary row: the logarithm of
the softmax. -/
noncomputable def logSoftmaxRow (xs : List ℝ) : List ℝ :=
  (softmaxRow xs).map Real.log

/-- Elementwise division of a row by the temperature,
`logits / self.temperature`. -/
noncomputable def scaleRow (temperature : ℝ) (xs : List ℝ) : List ℝ :=
  xs.map (fun x => x / temperature)

/-- The pointwise term of `nn.KLDivLoss`:
`target * (log(target) - input)`. -/
noncomputable def kldivPoint (input target : ℝ) : ℝ :=
  target * (Real.log target - input)

/-- `nn.KLDivLoss(reduction="batchmean")` (line 231 of the source): the
sum of the pointwise terms divided by the first-dimension size of the
input. -/
noncomputable def kldivBatchmean (input target : List (List ℝ)) : ℝ :=
  (List.zipWith (fun irow trow => (List.zipWith kldivPoint irow trow).sum)
      input target).sum / (input.length : ℝ)

/-- Lines 263-288 of the source: `calc_ce_loss` selects the real-token
rows of both logit tensors when a mask is supplied, then returns
`KLDivLoss(batchmean)(log_softmax(student / T), softmax(teacher / T))
* T ** 2`. -/
noncomputable def calc_ce_loss (temperature : ℝ) (mask : Option (List Bool))
    (s_logits t_logits : List (List ℝ)) : ℝ :=
  kldivBatchmean
      ((selectLogits mask s_logits).map
        (fun r => logSoftmaxRow (scaleRow temperature r)))
      ((selectLogits mask t_logits).map
        (fun r => softmaxRow (scaleRow temperature r)))
    * temperature ^ 2

/-- The KL divergence of two probability rows, written as in the spec:
`Σ p * log(p / q)` with `p` the target distribution and `q` the
distribution under optimization. -/
noncomputable def klDiv (p q : List ℝ) : ℝ :=
  (List.zipWith (fun pi qi => pi * Real.log (pi / qi)) p q).sum

/-- The spec's statement of the soft-target loss: `T ^ 2` times the
batch-averaged KL divergence taking `softmax(teacher / T)` as the
target distribution and `softmax(student / T)` as the distribution
under optimization. -/
noncomputable def softTargetLossSpec (temperature : ℝ)
    (s_logits t_logits : List (List ℝ)) : ℝ :=
  temperature ^ 2 *
    ((List.zipWith
        (fun srow trow =>
          klDiv (softmaxRow (scaleRow temperature trow))
            (softmaxRow (scaleRow temperature srow)))
        s_logits t_logits).sum / (s_logits.length : ℝ))

lemma softmaxRow_pos (xs : List ℝ) : ∀ x ∈ softmaxRow xs, 0 < x := by
  intro x hx
  obtain ⟨a, ha, rfl⟩ := List.mem_map.mp hx
  refine div_pos (Real.exp_pos a) (List.sum_pos _ ?_ ?_)
  · intro y hy
    obtain ⟨b, _, rfl⟩ := List.mem_map.mp hy
    exact Real.exp_pos b
  · simp only [ne_eq, List.map_eq_nil_iff]
    exact List.ne_nil_of_mem ha

lemma zip_kldiv_sum (q p : List ℝ) (hq : ∀ x ∈ q, 0 < x)
    (hp : ∀ x ∈ p, 0 < x) :
    (List.zipWith kldivPoint (q.map Real.log) p).sum
      = (List.zipWith (fun pi qi => pi * Real.log (pi / qi)) p q).sum := by
  induction q generalizing p with
  | nil => cases p <;> simp
  | cons q0 qs ih =>
    cases p with
    | nil => simp
    | cons p0 ps =>
      simp only [List.map_cons, List.zipWith_cons_cons, List.sum_cons]
      have hq0 : q0 ≠ 0 := ne_of_gt (hq q0 (List.mem_cons_self q0 qs))
      have hp0 : p0 ≠ 0 := ne_of_gt (hp p0 (List.mem_cons_self p0 ps))
      rw [ih ps (fun x hx => hq x (List.mem_cons_of_mem q0 hx))
          (fun x hx => hp x (List.mem_cons_of_mem p0 hx))]
      rw [kldivPoint, Real.log_div hp0 hq0]

lemma row_kl_eq (temperature : ℝ) (srow trow : List ℝ) :
    (List.zipWith kldivPoint (logSoftmaxRow (scaleRow temperature srow))
        (softmaxRow (scaleRow temperature trow))).sum
      = klDiv (softmaxRow (scaleRow temperature trow))
          (softmaxRow (scaleRow temperature srow)) := by
  unfold logSoftmaxRow klDiv
  exact zip_kldiv_sum _ _ (softmaxRow_pos _) (softmaxRow_pos _)

lemma batch_kl_sum_eq (temperature : ℝ) (s_logits t_logits : List (List ℝ)) :
    (List.zipWith (fun irow trow => (List.zipWith kldivPoint irow trow).sum)
        (s_logits.map (fun r => logSoftmaxRow (scaleRow temperature r)))
        (t_logits.map (fun r => softmaxRow (scaleRow temperature r)))).sum
      = (List.zipWith
          (fun srow trow =>
            klDiv (softmaxRow (scaleRow temperature trow))
              (softmaxRow (scaleRow temperature srow)))
          s_logits t_logits).sum := by
  induction s_logits generalizing t_logits with
  | nil => cases t_logits <;> simp
  | cons s0 ss ih =>
    cases t_logits with
    | nil => simp
    | cons t0 ts =>
      simp only [List.map_cons, List.zipWith_cons_cons, List.sum_cons]
      rw [ih ts, row_kl_eq]

/-- C3: for every temperature, optional padding mask and pair of logit
tensors, `calc_ce_loss` equals the temperature squared times the
batch-averaged KL divergence whose target distribution is
`softmax(teacher / T)` and whose distribution under optimization is
`softmax(student / T)` (equivalently `log_softmax(student / T)`),
computed on the selected rows; the teacher-as-target direction is fixed
by the formula. -/
theorem calc_ce_loss_eq_softTarget (temperature : ℝ)
    (mask : Option (List Bool)) (s_logits t_logits : List (List ℝ)) :
    calc_ce_loss temperature mask s_logits t_logits
      = softTargetLossSpec temperature (selectLogits mask s_logits)
          (selectLogits mask t_logits) := by
  unfold calc_ce_loss softTargetLossSpec kldivBatchmean
  rw [batch_kl_sum_eq, List.length_map]
  ring

/-- Rows at positions the padding mask marks as real tokens
(mask entry `false`) coincide; the two tensors may differ arbitrarily
at padding positions (mask entry `true`) and must have the shape of the
mask. -/
def agreeOutsideMask : List Bool → List (List ℝ) → List (List ℝ) → Prop
  | [], [], [] => True
  | b :: ms, r :: xs, r2 :: ys =>
      (b = false → r = r2) ∧ agreeOutsideMask ms xs ys
  | _, _, _ => False

lemma selectRows_invert_cons (b : Bool) (ms : List Bool) (r : List ℝ)
    (xs : List (List ℝ)) :
    selectRows (invert_mask (b :: ms)) (r :: xs)
      = if b then selectRows (invert_mask ms) xs
        else r :: selectRows (invert_mask ms) xs := by
  cases b <;> simp [selectRows, invert_mask]

lemma selectRows_invert_congr (m : List Bool) (x y : List (List ℝ))
    (h : agreeOutsideMask m x y) :
    selectRows (invert_mask m) x = selectRows (invert_mask m) y := by
  induction m generalizing x y with
  | nil =>
    cases x with
    | nil => cases y with
      | nil => rfl
      | cons r ys => exact h.elim
    | cons r xs => exact h.elim
  | cons b ms ih =>
    cases x with
    | nil => exact h.elim
    | cons r xs =>
      cases y with
      | nil => exact h.elim
      | cons r2 ys =>
        obtain ⟨hr, hrest⟩ := h
        have hih := ih xs ys hrest
        rw [selectRows_invert_cons, selectRows_invert_cons]
        cases b with
        | true => simpa using hih
        | false =>
          simp only [Bool.false_eq_true, if_false]
          rw [hr rfl, hih]

/-- C4: the padding mask is inverted exactly once to true-at-real-token
polarity and used to select the real-token rows of both logit tensors,
so whenever two student logit tensors and two teacher logit tensors
agree at every non-padding position (differing only where the mask
marks padding), the computed soft-target loss is identical: padded
positions have zero influence. -/
theorem masked_positions_no_influence (temperature : ℝ) (m : List Bool)
    (s_logits t_logits s2_logits t2_logits : List (List ℝ))
    (hs : agreeOutsideMask m s_logits s2_logits)
    (ht : agreeOutsideMask m t_logits t2_logits) :
    calc_ce_loss temperature (some m) s_logits t_logits
      = calc_ce_loss temperature (some m) s2_logits t2_logits := by
  unfold calc_ce_loss
  simp only [selectLogits]
  rw [selectRows_invert_congr m s_logits s2_logits hs,
    selectRows_invert_congr m t_logits t2_logits ht]

/-- Witness for `masked_positions_no_influence`: position 0 is padding
(mask true) and its logits differ between the two student tensors;
position 1 is a real token and agrees; the loss is unchanged. -/
theorem masked_positions_no_influence_witness :
    calc_ce_loss 2 (some [true, false])
        [[0, 1], [2, 3]] [[1, 1], [1, 1]]
      = calc_ce_loss 2 (some [true, false])
        [[5, 6], [2, 3]] [[7, 4], [1, 1]] :=
  masked_positions_no_influence 2 [true, false]
    [[0, 1], [2, 3]] [[1, 1], [1, 1]] [[5, 6], [2, 3]] [[7, 4], [1, 1]]
    (by simp [agreeOutsideMask]) (by simp [agreeOutsideMask])

end BartDistill
